import Mathlib

/-!
# Verification of the block-graph editor core (`frontend/static/js/canvas.js`)

This file is a shallow embedding of the `CanvasManager` class of
`src/frontend/static/js/canvas.js` together with proofs and refutations of the
specification's claims about it.

Modelling conventions:
* JS numbers are modelled as `ℚ` (no claim under consideration depends on
  floating-point rounding; all arithmetic in the cited code paths is exact on
  the small grid values involved).
* The `blocks` field of `CanvasManager` is a JS `Map` whose *values are DOM
  elements* (see `addBlock`, line 275: `this.blocks.set(blockId, blockElement)`).
  A DOM element is modelled by `BlockElem`: its reflected `id` attribute
  (`domId`, assigned only by `createBlockElement`), its expando properties
  (`blockData`, and `x`/`y` which only the drag handler assigns), and its
  inline style position.  A `div` element has no `type` property, so reading
  `.type` on it yields `undefined`; `BlockElem.typeProp` is therefore `none`.
* `Utils.deepClone` (utils.js, lines 37-48) copies only the *own enumerable*
  properties of an object.  For a DOM element those are exactly the expando
  properties `blockData` (always) and `x`/`y` (after a drag), hence cloning an
  element yields the plain object modelled by `BVal.wrap`.
* JS `Map` insertion order is modelled by an association list.
-/

namespace MMC

/-- Decimal digits of `n`, least significant first, as characters; `fuel`-driven
structural recursion (`fuel ≥ n` suffices).  Models the decimal rendering that
the template literal `` `block_${++this.blockCounter}` `` performs on a
nonnegative integer. -/
def toDigitsRev : ℕ → ℕ → List Char
  | 0, _ => []
  | fuel + 1, n => if n = 0 then [] else Nat.digitChar (n % 10) :: toDigitsRev fuel (n / 10)

/-- JS number-to-string conversion, restricted to naturals (the only values the
source converts when building block ids). -/
def natToStr (n : ℕ) : String :=
  if n = 0 then "0" else ⟨(toDigitsRev n n).reverse⟩

/-- Numeric value of a decimal digit character. -/
def charVal (c : Char) : ℕ := c.toNat - 48

/-- Little-endian decimal evaluation, the retraction used to prove `natToStr`
injective. -/
def ofDigitsRev : List Char → ℕ
  | [] => 0
  | c :: cs => charVal c + 10 * ofDigitsRev cs

/-- The id string `addBlock` assigns for counter value `k`:
`` `block_${k}` `` (canvas.js line 255). -/
def mkBlockId (k : ℕ) : String := "block_" ++ natToStr k

/-- `String.prototype.split('_')` on the character list of a string. -/
def splitUnderscore : List Char → List (List Char)
  | [] => [[]]
  | c :: cs =>
    if c = '_' then
      [] :: splitUnderscore cs
    else
      match splitUnderscore cs with
      | [] => [[c]]
      | piece :: rest => (c :: piece) :: rest

/-- Leading decimal-digit run, models `parseInt` on strings made of digits
(possibly followed by junk); `none` models `NaN`. -/
def parseIntLeading (cs : List Char) : Option ℕ :=
  let digits := cs.takeWhile fun c => '0' ≤ c ∧ c ≤ '9'
  if digits.isEmpty then none
  else some (digits.foldl (fun acc c => 10 * acc + charVal c) 0)

/-- `parseInt(s.split('_')[1])` as used by `autoConnectNewBlock`
(canvas.js lines 303-307) to order blocks by creation sequence. -/
def parseIdNum (s : String) : Option ℕ :=
  match (splitUnderscore s.data).get? 1 with
  | none => none
  | some piece => parseIntLeading piece

/-! ## Data model -/

/-- The plain block record built by `addBlock` (canvas.js lines 257-264).  The
`definition` payload (an opaque schema reference that is passed through
unchanged and inspected by no claim) is omitted. -/
structure BlockData where
  id : String
  type : String
  x : ℚ
  y : ℚ
  properties : List (String × String)
  deriving DecidableEq

/-- A JS value that can sit in a block element's `blockData` expando property or
in a history snapshot:
* `data` — a plain block record (`addBlock`, `import`);
* `jdata` — the record `createBlockFromData` builds (lines 1231-1236), which
  carries *no* `x`/`y` fields;
* `wrap` — the object `Utils.deepClone` produces from a DOM element: the
  element's own enumerable properties, i.e. its `blockData` expando plus the
  `x`/`y` expandos that only the drag handler (lines 455-459) assigns. -/
inductive BVal where
  | data (b : BlockData)
  | jdata (id type : String) (properties : List (String × String)) (language : String)
  | wrap (v : BVal) (hx hy : Option ℚ)
  deriving DecidableEq

/-- Reading `.type` on a `BVal`; `undefined` is `none`. -/
def BVal.typeProp : BVal → Option String
  | .data b => some b.type
  | .jdata _ t _ _ => some t
  | .wrap _ _ _ => none

/-- Reading `.id` on a `BVal`. -/
def BVal.idProp : BVal → Option String
  | .data b => some b.id
  | .jdata i _ _ _ => some i
  | .wrap _ _ _ => none

/-- Reading `.x` on a `BVal`; a `wrap` object has an `x` field exactly when the
cloned element had been dragged. -/
def BVal.xProp : BVal → Option ℚ
  | .data b => some b.x
  | .jdata _ _ _ _ => none
  | .wrap _ hx _ => hx

/-- Reading `.y` on a `BVal`. -/
def BVal.yProp : BVal → Option ℚ
  | .data b => some b.y
  | .jdata _ _ _ _ => none
  | .wrap _ _ hy => hy

/-- The underlying plain block record, when the value is one. -/
def BVal.asData : BVal → Option BlockData
  | .data b => some b
  | _ => none

/-- A DOM block element as the graph store holds it: the reflected `id`
attribute (assigned only by `createBlockElement`, line 377; `""` otherwise),
the expando properties, and the inline-style position. -/
structure BlockElem where
  domId : String
  blockData : BVal
  elemX : Option ℚ := none
  elemY : Option ℚ := none
  styleLeft : ℚ
  styleTop : ℚ
  deriving DecidableEq

/-- Reading `.type` on a DOM element: an `HTMLDivElement` exposes no `type`
property, so the access in `autoConnectNewBlock` (line 312) yields
`undefined`. -/
def BlockElem.typeProp (_ : BlockElem) : Option String := none

/-- `Utils.deepClone` applied to a block element: a plain object holding the
element's own enumerable properties (`blockData`, and `x`/`y` if dragged). -/
def deepCloneElem (e : BlockElem) : BVal := .wrap e.blockData e.elemX e.elemY

/-- A connection as stored in `this.connections`; `autoConnectNewBlock` pushes
`{from, to}` with no ports (`undefined` = `none`). -/
structure Conn where
  fromId : String
  toId : String
  fromPort : Option String := none
  toPort : Option String := none
  deriving DecidableEq

/-- A history entry as `saveState` (lines 873-879) records it. -/
structure Snapshot where
  blocks : List (String × BVal)
  connections : List Conn
  zoom : ℚ
  panX : ℚ
  panY : ℚ
  deriving DecidableEq

/-- The mutable state of a `CanvasManager` session.  `autosavePending` models
`autoSaveTimeout !== null`; `selectedBlock` models the element reference the
source stores (held here by value — no claim depends on mutating a selected
element through the alias). -/
structure CanvasState where
  zoom : ℚ
  panX : ℚ
  panY : ℚ
  blocks : List (String × BlockElem)
  connections : List Conn
  blockCounter : ℕ
  history : List Snapshot
  historyIndex : ℤ
  selectedBlock : Option BlockElem
  autosavePending : Bool
  deriving DecidableEq

/-- The state of a freshly constructed `CanvasManager` (constructor,
lines 4-33), before any server session is restored. -/
def freshManager : CanvasState :=
  { zoom := 1, panX := 0, panY := 0, blocks := [], connections := [],
    blockCounter := 0, history := [], historyIndex := -1,
    selectedBlock := none, autosavePending := false }

/-! ## JS `Map` (insertion-ordered) -/

/-- `Map.prototype.get`. -/
def jsMapGet (m : List (String × BlockElem)) (k : String) : Option BlockElem :=
  (m.find? (fun p => p.1 = k)).map Prod.snd

/-- `Map.prototype.set`: replaces in place if the key exists, appends
otherwise. -/
def jsMapSet (m : List (String × BlockElem)) (k : String) (v : BlockElem) :
    List (String × BlockElem) :=
  if m.any (fun p => p.1 = k) then
    m.map (fun p => if p.1 = k then (k, v) else p)
  else
    m ++ [(k, v)]

/-- `Map.prototype.delete`. -/
def jsMapDelete (m : List (String × BlockElem)) (k : String) : List (String × BlockElem) :=
  m.filter (fun p => ¬ p.1 = k)

/-! ## Grid snapping and misc JS helpers -/

/-- Floor of a rational, computed as floor-division of numerator by
denominator (the denominator is positive, so `Int.fdiv` is the floor). -/
def ratFloor (q : ℚ) : ℤ := q.num.fdiv q.den

/-- `Math.round`: rounds half toward `+∞`, i.e. `⌊x + 1/2⌋`. -/
def jsRound (q : ℚ) : ℤ := ratFloor (q + 1 / 2)

/-- `Math.round(v / 20) * 20` (lines 260-261, 448-449). -/
def gridSnap (q : ℚ) : ℚ := ((jsRound (q / 20) : ℤ) : ℚ) * 20

/-- `a || d` for numbers: `a` unless `a` is falsy (`0`). -/
def jsOr (a d : ℚ) : ℚ := if a = 0 then d else a

/-! ## History engine (`saveState` / `undo` / `redo` / `restoreState`) -/

/-- The snapshot `saveState` takes of the live state (lines 873-879):
`Utils.deepClone(Array.from(this.blocks.entries()))` clones each entry's DOM
element into its own-enumerable-property object. -/
def liveSnapshot (st : CanvasState) : Snapshot :=
  { blocks := st.blocks.map (fun p => (p.1, deepCloneElem p.2)),
    connections := st.connections,
    zoom := st.zoom, panX := st.panX, panY := st.panY }

/-- `maxHistorySize` (line 25). -/
def maxHistorySize : ℕ := 50

/-- `saveState` (lines 872-899): truncate beyond the cursor, append the
snapshot, evict the oldest past the cap (without moving the cursor), else
advance the cursor; finally schedule the debounced autosave. -/
def saveStateM (st : CanvasState) : CanvasState :=
  let state := liveSnapshot st
  let hist :=
    if st.historyIndex < (st.history.length : ℤ) - 1 then
      st.history.take (st.historyIndex + 1).toNat
    else st.history
  let hist := hist ++ [state]
  if maxHistorySize < hist.length then
    { st with history := hist.drop 1, autosavePending := true }
  else
    { st with history := hist, historyIndex := st.historyIndex + 1,
              autosavePending := true }

/-- `restoreState` (lines 917-975).  Each snapshot entry `[id, blockData]` is
rebuilt as a fresh `div` (no `id` attribute assigned) whose `blockData` expando
is a deep clone of the snapshot value and whose style position reads
`blockData.x || 0` — note the snapshot value is the *clone of the element*,
not the block record. -/
def restoreStateM (st : CanvasState) (os : Option Snapshot) : CanvasState :=
  match os with
  | none => st
  | some state =>
    { st with
      blocks := state.blocks.map (fun p =>
        (p.1,
         { domId := "", blockData := p.2,
           styleLeft := (p.2.xProp).getD 0, styleTop := (p.2.yProp).getD 0 })),
      connections := state.connections,
      zoom := jsOr state.zoom 1,
      panX := state.panX, panY := state.panY }

/-- `undo` (lines 901-907). -/
def undoM (st : CanvasState) : CanvasState :=
  if 0 < st.historyIndex then
    let st := { st with historyIndex := st.historyIndex - 1 }
    restoreStateM st (st.history.get? st.historyIndex.toNat)
  else st

/-- `redo` (lines 909-915). -/
def redoM (st : CanvasState) : CanvasState :=
  if st.historyIndex < (st.history.length : ℤ) - 1 then
    let st := { st with historyIndex := st.historyIndex + 1 }
    restoreStateM st (st.history.get? st.historyIndex.toNat)
  else st

/-! ## Auto-linker and block mutation -/

/-- Sort key used by `autoConnectNewBlock` (lines 303-307):
`parseInt(element.id.split('_')[1])`; `NaN` (unreachable in the claims' traces)
is read as `0`. -/
def sortKey (e : BlockElem) : ℕ := (parseIdNum e.domId).getD 0

/-- Stable insertion preserving the descending comparator
`(a, b) => bNum - aNum`. -/
def insertDesc (e : BlockElem) : List BlockElem → List BlockElem
  | [] => [e]
  | f :: fs => if sortKey e < sortKey f then f :: insertDesc e fs else e :: f :: fs

/-- Stable sort by descending creation counter, modelling
`existingBlocks.sort((a, b) => bNum - aNum)`. -/
def sortByIdDesc : List BlockElem → List BlockElem
  | [] => []
  | e :: es => insertDesc e (sortByIdDesc es)

/-- `autoConnectNewBlock` (lines 293-331), executed *before* the new block is
in the store.  `existingBlocks` are the DOM elements held by the map; the code
reads `lastBlock.type` (always `undefined` on a `div`) and `lastBlock.id` (the
DOM id `canvas-block_N`), and pushes `{from: lastBlock.id, to: newBlock.id}`. -/
def autoConnect (st : CanvasState) (newBlock : BlockData) : CanvasState :=
  let existingBlocks := st.blocks.map Prod.snd
  if existingBlocks.length = 0 then st
  else
    match sortByIdDesc existingBlocks with
    | [] => st
    | lastBlock :: _ =>
      if lastBlock.typeProp = some "end" then st
      else if newBlock.type = "start" ∧ 0 < existingBlocks.length then st
      else
        { st with connections :=
            st.connections ++ [{ fromId := lastBlock.domId, toId := newBlock.id }] }

/-- `addBlock` (lines 254-291): mint `block_{++blockCounter}`, snap the position
to the grid, run the auto-linker, create the DOM element (whose `id` attribute
is `canvas-` + block id), store it in the map, and push a history entry.
Returns the new block id as the source does. -/
def addBlockM (st : CanvasState) (type : String) (px py : ℚ) : CanvasState × String :=
  let counter := st.blockCounter + 1
  let blockId := mkBlockId counter
  let block : BlockData :=
    { id := blockId, type := type, x := gridSnap px, y := gridSnap py, properties := [] }
  let st := autoConnect st block
  let elem : BlockElem :=
    { domId := "canvas-" ++ blockId, blockData := .data block,
      styleLeft := block.x, styleTop := block.y }
  let st := { st with blocks := jsMapSet st.blocks blockId elem, blockCounter := counter }
  (saveStateM st, blockId)

/-- `removeBlock` (lines 509-541).  On an unknown id the guard
`if (!blockElement) return;` fires: the function returns `undefined` — exactly
what it also returns on success — and performs no mutation.  The second
component models the value returned to the caller, `undefined` (`none`) on
every path: the source surfaces no error. -/
def removeBlockM (st : CanvasState) (blockId : String) : CanvasState × Option String :=
  match jsMapGet st.blocks blockId with
  | none => (st, none)
  | some _ =>
    let st :=
      { st with
        blocks := jsMapDelete st.blocks blockId,
        connections := st.connections.filter
          (fun conn => ¬ conn.fromId = blockId ∧ ¬ conn.toId = blockId),
        selectedBlock :=
          match st.selectedBlock with
          | none => none
          | some sel => if sel.blockData.idProp = some blockId then none else some sel }
    (saveStateM st, none)

/-- The drag-handler `mousemove` body (lines 440-460): snap the pointer
position, write it to the element's inline style, and set the element's `x`/`y`
*expando* properties (line 455 fetches the element itself, not its
`blockData`). -/
def dragMoveM (st : CanvasState) (blockId : String) (px py : ℚ) : CanvasState :=
  let sx := gridSnap px
  let sy := gridSnap py
  match jsMapGet st.blocks blockId with
  | none => st
  | some e =>
    let e2 : BlockElem :=
      { e with styleLeft := sx, styleTop := sy, elemX := some sx, elemY := some sy }
    { st with blocks := jsMapSet st.blocks blockId e2 }

/-- The drag-handler `mouseup` body (lines 463-472): commit once. -/
def dragEndM (st : CanvasState) : CanvasState := saveStateM st

/-- `clear` (lines 986-994), the UI clear-all: empties the store and selection,
then pushes a history entry.  It does *not* reset `blockCounter`. -/
def clearM (st : CanvasState) : CanvasState :=
  saveStateM { st with blocks := [], connections := [], selectedBlock := none }

/-- `clearCanvas` (lines 758-773), used by `restoreFromJSONState`: empties the
store and *resets `blockCounter` to 0*; pushes no history entry. -/
def clearCanvasM (st : CanvasState) : CanvasState :=
  { st with blocks := [], connections := [], blockCounter := 0 }

/-! ## Persistence gateway (`export` / `import` / session restore) -/

/-- The document `export` (lines 997-1028) produces: block records, the live
connection list, and viewport metadata (the timestamp is omitted). -/
structure ExportDoc where
  blocks : List BlockData
  connections : List Conn
  mZoom : ℚ
  mPanX : ℚ
  mPanY : ℚ
  deriving DecidableEq

/-- The horizontal position `export` computes for a block element (line 1009):
`(rect.left - canvasRect.left - panX) / zoom`.  Layout model:
`rect.left - canvasRect.left = styleLeft * zoom`, because the element sits at
inline-style offset `styleLeft` inside `canvasContent`, whose CSS transform
`translate(panX, panY) scale(zoom)` moves both bounding rects identically (the
translation cancels in the difference).  This is exact whenever `zoom = 1`
(pure translation); every claim evaluates `export` at `zoom = 1`. -/
def exportX (st : CanvasState) (e : BlockElem) : ℚ :=
  (e.styleLeft * st.zoom - st.panX) / st.zoom

/-- Vertical counterpart of `exportX` (line 1010). -/
def exportY (st : CanvasState) (e : BlockElem) : ℚ :=
  (e.styleTop * st.zoom - st.panY) / st.zoom

/-- `export` (lines 997-1028).  Each element with a plain `blockData` record is
exported with its id, type, properties and the rect-derived position.  A
`wrap`-valued `blockData` (possible only after an undo) would export
`undefined` ids and types; no claim evaluates `export` on such a state, and the
model drops those blocks. -/
def exportM (st : CanvasState) : ExportDoc :=
  { blocks := st.blocks.filterMap (fun p =>
      match p.2.blockData.asData with
      | some b => some { b with x := exportX st p.2, y := exportY st p.2 }
      | none => none),
    connections := st.connections,
    mZoom := st.zoom, mPanX := st.panX, mPanY := st.panY }

/-- One iteration of `import`'s `data.blocks.forEach` (lines 1039-1044):
re-create the document block verbatim via `createBlockElement` (which assigns
the DOM id `canvas-` + block id; *no* grid snapping) and store it. -/
def importBlockStep (st : CanvasState) (block : BlockData) : CanvasState :=
  let elem : BlockElem :=
    { domId := "canvas-" ++ block.id, blockData := .data block,
      styleLeft := block.x, styleTop := block.y }
  { st with blocks := jsMapSet st.blocks block.id elem }

/-- `import` (lines 1031-1063): after the `!data || !data.blocks` guard (which
an `ExportDoc` satisfies by construction) it runs `clear()` — itself pushing a
history entry — re-creates each document block, installs the document's
connection list and viewport metadata, and pushes a final history entry. -/
def importM (st : CanvasState) (doc : ExportDoc) : CanvasState :=
  let st := clearM st
  let st := doc.blocks.foldl importBlockStep st
  let st := { st with connections := doc.connections }
  let st := { st with zoom := jsOr doc.mZoom 1, panX := doc.mPanX, panY := doc.mPanY }
  saveStateM st

/-- A block entry of a saved session document, as consumed by
`restoreFromJSONState` / `createBlockFromData` (lines 1216-1256). -/
structure JBlock where
  id : String
  type : String
  x : ℚ
  y : ℚ
  properties : List (String × String)
  language : String
  deriving DecidableEq

/-- A saved session document (`canvas_state` as served by `/api/canvas/load`). -/
structure SessionDoc where
  blocks : List JBlock
  connections : List Conn
  zoom : ℚ
  panX : ℚ
  panY : ℚ
  deriving DecidableEq

/-- `createBlockFromData` (lines 1216-1256), parametrised by `defs`, the block
type catalog `blockManager.getBlockDefinition` consults (runtime data fetched
from the backend): an unknown type is skipped.  The created element gets *no*
`id` attribute, and its `blockData` carries no `x`/`y` fields (lines
1231-1236). -/
def createBlockFromDataM (defs : List String) (st : CanvasState) (b : JBlock) : CanvasState :=
  if defs.contains b.type then
    let elem : BlockElem :=
      { domId := "", blockData := .jdata b.id b.type b.properties b.language,
        styleLeft := b.x, styleTop := b.y }
    { st with blocks := jsMapSet st.blocks b.id elem }
  else st

/-- `restoreFromJSONState` (lines 1167-1204): `clearCanvas()` (which resets
`blockCounter` to 0), then re-create the document's blocks and install its
connections and viewport.  No history entry is pushed. -/
def restoreFromJSONStateM (defs : List String) (st : CanvasState) (doc : SessionDoc) :
    CanvasState :=
  let st := clearCanvasM st
  let st := doc.blocks.foldl (createBlockFromDataM defs) st
  let st := { st with connections := doc.connections }
  { st with zoom := jsOr doc.zoom 1, panX := doc.panX, panY := doc.panY }

/-! ## Autosave debounce (`scheduleAutoSave`, lines 1206-1214)

Timed semantics of the trailing debounce: every committed mutation calls
`scheduleAutoSave`, which cancels any pending timer (`clearTimeout`) and
schedules `saveToJSON` `autoSaveDelay` (default 1000 ms) in the future.  For a
list of strictly increasing mutation timestamps, a timer scheduled at time `t`
fires at `t + delay` unless another mutation occurs strictly before that
deadline (in which case `clearTimeout` cancels it).  `runDebounce` returns the
times at which `saveToJSON` actually runs. -/

/-- Save times produced by a sequence of mutation timestamps under the
`scheduleAutoSave` debounce protocol. -/
def runDebounce (delay : ℕ) : List ℕ → List ℕ
  | [] => []
  | [t] => [t + delay]
  | t1 :: t2 :: rest =>
    (if t1 + delay ≤ t2 then [t1 + delay] else []) ++ runDebounce delay (t2 :: rest)

/-! ## Derived observations used by the claims -/

/-- The ids of the blocks currently in the store (the keys of `this.blocks`). -/
def blockIds (st : CanvasState) : List String := st.blocks.map Prod.fst

/-- "No dangling connection": every stored connection references only ids of
blocks currently in the store. -/
def noDangling (st : CanvasState) : Bool :=
  st.connections.all (fun c => (blockIds st).contains c.fromId && (blockIds st).contains c.toId)

/-- The plain block records of the live graph (defined for every block whose
`blockData` is a plain record, which is the case in every state the claims
evaluate). -/
def graphBlocks (st : CanvasState) : List BlockData :=
  st.blocks.filterMap (fun p => p.2.blockData.asData)

/-- A coordinate on the 20-pixel grid. -/
def gridAligned (q : ℚ) : Prop := ∃ k : ℤ, q = 20 * k

/-- Modelled from the spec's round-trip requirement (§6): two graphs are
structurally equal up to id renumbering when some renaming of ids maps the
blocks (types, positions, properties preserved) and connections of one onto
the other. -/
def GraphEqUpToIds (g h : CanvasState) : Prop :=
  ∃ f : String → String,
    graphBlocks h = (graphBlocks g).map (fun b => { b with id := f b.id }) ∧
    h.connections = g.connections.map
      (fun c => { c with fromId := f c.fromId, toId := f c.toId })

/-- The element as the drag handler leaves it: style position and `x`/`y`
expandos hold the snapped pointer position. -/
def draggedElem (e0 : BlockElem) (px py : ℚ) : BlockElem :=
  { e0 with styleLeft := gridSnap px, styleTop := gridSnap py,
            elemX := some (gridSnap px), elemY := some (gridSnap py) }

/-- The user-level operations of one editor session that the id-freshness
claim quantifies over.  `restoreOp` is the session-load path
(`restoreFromJSONState`), whose `clearCanvas()` resets the id counter. -/
inductive Op where
  | addB (type : String) (px py : ℚ)
  | removeB (id : String)
  | undoOp
  | redoOp
  | clearOp
  | restoreOp (defs : List String) (doc : SessionDoc)
  deriving DecidableEq

/-- Whether an operation is a session restore. -/
def Op.isRestore : Op → Bool
  | .restoreOp _ _ => true
  | _ => false

/-- Run one operation; the second component lists the block ids `addBlock`
assigned during it. -/
def applyOp (st : CanvasState) : Op → CanvasState × List String
  | .addB ty px py => ((addBlockM st ty px py).1, [(addBlockM st ty px py).2])
  | .removeB i => ((removeBlockM st i).1, [])
  | .undoOp => (undoM st, [])
  | .redoOp => (redoM st, [])
  | .clearOp => (clearM st, [])
  | .restoreOp defs doc => (restoreFromJSONStateM defs st doc, [])

/-- Run a sequence of operations, collecting every id `addBlock` assigned. -/
def runOps : CanvasState → List Op → CanvasState × List String
  | st, [] => (st, [])
  | st, op :: ops =>
    ((runOps (applyOp st op).1 ops).1,
     (applyOp st op).2 ++ (runOps (applyOp st op).1 ops).2)

/-- The snapshot `clear()` records: the emptied canvas under the current
viewport. -/
def clearedSnap (st : CanvasState) : Snapshot :=
  { blocks := [], connections := [], zoom := st.zoom, panX := st.panX, panY := st.panY }

/-- The session state just before `import`'s final `saveState()` call: cleared
canvas, the document's blocks re-created, connections and viewport metadata
installed. -/
def importPre (st : CanvasState) (doc : ExportDoc) : CanvasState :=
  { (doc.blocks.foldl importBlockStep (clearM st)) with
    connections := doc.connections,
    zoom := jsOr doc.mZoom 1, panX := doc.mPanX, panY := doc.mPanY }

/-- A committed mutation: the UI event handler replaces graph content
synchronously and then calls `saveState()` (insertion, deletion, drag end,
property save, clear-all all follow this shape). -/
def commitM (st : CanvasState) (b : List (String × BlockElem)) (c : List Conn) : CanvasState :=
  saveStateM { st with blocks := b, connections := c }

/-! ## Properties of the id rendering -/

theorem charVal_digitChar : ∀ d : ℕ, d < 10 → charVal (Nat.digitChar d) = d := by decide

theorem ofDigitsRev_toDigitsRev : ∀ fuel n, n ≤ fuel → ofDigitsRev (toDigitsRev fuel n) = n := by
  intro fuel
  induction fuel with
  | zero => intro n hn; interval_cases n; simp [toDigitsRev, ofDigitsRev]
  | succ fuel ih =>
    intro n hn
    by_cases h0 : n = 0
    · simp [toDigitsRev, h0, ofDigitsRev]
    · have hdiv : n / 10 ≤ fuel := by
        have : n / 10 < n := Nat.div_lt_self (Nat.pos_of_ne_zero h0) (by norm_num)
        omega
      simp only [toDigitsRev, h0, if_false, ofDigitsRev]
      rw [charVal_digitChar (n % 10) (Nat.mod_lt n (by norm_num)), ih (n / 10) hdiv]
      omega

theorem toDigitsRev_self_ne_nil (n : ℕ) (hn : n ≠ 0) : toDigitsRev n n ≠ [] := by
  cases n with
  | zero => exact absurd rfl hn
  | succ m => simp [toDigitsRev]

theorem natToStr_injective : Function.Injective natToStr := by
  intro a b h
  by_cases ha : a = 0 <;> by_cases hb : b = 0
  · omega
  · exfalso
    have hdata := congrArg String.data h
    simp only [natToStr, ha, hb, if_true, if_false] at hdata
    have hrev : (toDigitsRev b b).reverse = ['0'] := by
      simpa [String.data] using hdata.symm
    have : toDigitsRev b b = ['0'] := by
      have := congrArg List.reverse hrev
      simpa using this
    have hb0 : ofDigitsRev (toDigitsRev b b) = 0 := by
      rw [this]; simp [ofDigitsRev, charVal]
    rw [ofDigitsRev_toDigitsRev b b le_rfl] at hb0
    exact hb hb0
  · exfalso
    have hdata := congrArg String.data h
    simp only [natToStr, ha, hb, if_true, if_false] at hdata
    have hrev : (toDigitsRev a a).reverse = ['0'] := by
      simpa [String.data] using hdata
    have : toDigitsRev a a = ['0'] := by
      have := congrArg List.reverse hrev
      simpa using this
    have ha0 : ofDigitsRev (toDigitsRev a a) = 0 := by
      rw [this]; simp [ofDigitsRev, charVal]
    rw [ofDigitsRev_toDigitsRev a a le_rfl] at ha0
    exact ha ha0
  · have hdata := congrArg String.data h
    simp only [natToStr, ha, hb, if_false] at hdata
    have hlists : (toDigitsRev a a).reverse = (toDigitsRev b b).reverse := by
      simpa [String.data] using hdata
    have : toDigitsRev a a = toDigitsRev b b := List.reverse_injective hlists
    have := congrArg ofDigitsRev this
    rwa [ofDigitsRev_toDigitsRev a a le_rfl, ofDigitsRev_toDigitsRev b b le_rfl] at this

theorem mkBlockId_injective : Function.Injective mkBlockId := by
  intro a b h
  have hdata := congrArg String.data h
  simp only [mkBlockId] at hdata
  have hcat : "block_".data ++ (natToStr a).data = "block_".data ++ (natToStr b).data := by
    simpa [String.data_append] using hdata
  have : (natToStr a).data = (natToStr b).data := by
    exact List.append_cancel_left hcat
  exact natToStr_injective (by cases hstr : natToStr a; cases hstr2 : natToStr b
                               simp_all)

/-! ## Claim C1 — dangling connections -/

/-- C1: **refuted (code bug)**.  The claim says no mutating call leaves a
dangling connection.  But `autoConnectNewBlock` reads `lastBlock.id` off a
*DOM element*, so the connection it pushes has `from = "canvas-block_1"` — the
DOM id, which is not the id of any block in the store.  Already after two
`addBlock` calls the store holds a dangling connection (and `removeBlock`'s
cascade, which filters on block ids, can never remove it). -/
theorem addBlock_creates_dangling_connection :
    ((addBlockM (addBlockM freshManager "start" 100 100).1 "print" 200 100).1).connections
      = [{ fromId := "canvas-block_1", toId := "block_2" }] ∧
    blockIds ((addBlockM (addBlockM freshManager "start" 100 100).1 "print" 200 100).1)
      = ["block_1", "block_2"] ∧
    noDangling ((addBlockM (addBlockM freshManager "start" 100 100).1 "print" 200 100).1)
      = false := by
  refine ⟨?_, ?_, ?_⟩ <;> with_unfolding_all rfl

/-! ## Claim C3 — auto-linker policy -/

/-- C3: **refuted (code bug)**.  The auto-linker is supposed to create no link
when the most recently inserted block has type `end`, and to link `last → new`
by their block ids.  In the source, `lastBlock` is a DOM element: its `.type`
is `undefined` (never `"end"`), so after inserting `print`, `end`, `input` a
second connection is still created, and each stored `from` is the DOM id
(`canvas-block_N`), which is the id of no block in the store. -/
theorem autoLinker_links_past_end_block :
    ((addBlockM (addBlockM (addBlockM freshManager "print" 0 0).1 "end" 0 100).1
        "input" 0 200).1).connections
      = [{ fromId := "canvas-block_1", toId := "block_2" },
         { fromId := "canvas-block_2", toId := "block_3" }] ∧
    ∀ c ∈ ((addBlockM (addBlockM (addBlockM freshManager "print" 0 0).1 "end" 0 100).1
        "input" 0 200).1).connections,
      ¬ (blockIds ((addBlockM (addBlockM (addBlockM freshManager "print" 0 0).1 "end" 0 100).1
          "input" 0 200).1)).contains c.fromId := by
  constructor
  · with_unfolding_all rfl
  · with_unfolding_all decide

/-! ## Claim C2 — undo restores the first snapshot -/

/-- C2: **refuted (code bug)**.  `saveState` deep-clones each map entry's DOM
element, and `Utils.deepClone` keeps only the element's own enumerable
properties — the snapshot records `{blockData: …}` wrappers.  `restoreState`
then reads that wrapper as if it were the block record: the restored block's
`type` is `undefined` and its position falls back to `0`.  After two committed
insertions and one undo, the live graph is not deep-equal to the snapshot
recorded by the first push (its deep clone differs, and the `print` type is
unrecoverable), refuting the K = 2 instance of the claim. -/
theorem undo_garbles_restored_blocks :
    ((addBlockM (addBlockM freshManager "print" 0 0).1 "input" 20 20).1).history.get? 0
      = some { blocks := [("block_1",
                 .wrap (.data { id := "block_1", type := "print", x := 0, y := 0,
                                properties := [] }) none none)],
               connections := [], zoom := 1, panX := 0, panY := 0 } ∧
    ((undoM (addBlockM (addBlockM freshManager "print" 0 0).1 "input" 20 20).1).blocks.map
        (fun p => (p.1, p.2.blockData.typeProp, p.2.styleLeft)))
      = [("block_1", none, 0)] ∧
    ¬ (some (liveSnapshot (undoM (addBlockM (addBlockM freshManager "print" 0 0).1
          "input" 20 20).1))
        = ((addBlockM (addBlockM freshManager "print" 0 0).1 "input" 20 20).1).history.get? 0) := by
  refine ⟨?_, ?_, ?_⟩ <;> with_unfolding_all decide

/-! ## Claim C6 — removeBlock on an unknown id -/

/-- C6 (amended): `removeBlock` on an id not present in the store returns early
with `undefined` and leaves the whole session state — block map, connections,
selection, history, pending autosave — unchanged; no error is surfaced to the
caller. -/
theorem removeBlock_unknown_id_noop (st : CanvasState) (blockId : String)
    (h : jsMapGet st.blocks blockId = none) :
    removeBlockM st blockId = (st, none) := by
  unfold removeBlockM
  rw [h]

/-- Witness for `removeBlock_unknown_id_noop` at a concrete input. -/
theorem removeBlock_unknown_id_noop_witness :
    jsMapGet freshManager.blocks "block_7" = none ∧
    removeBlockM freshManager "block_7" = (freshManager, none) :=
  ⟨rfl, removeBlock_unknown_id_noop freshManager "block_7" rfl⟩

/-- C6 counterexample to the claim as stated: `removeBlock` does *not* report
`NotFound` to the caller — the function returns `undefined` (`none`) on the
unknown-id path exactly as on the success path, surfacing nothing. -/
theorem removeBlock_unknown_id_reports_nothing :
    (removeBlockM freshManager "block_7").2 = none ∧
    ¬ (removeBlockM freshManager "block_7").2 = some "NotFound" := by
  exact ⟨rfl, by decide⟩

/-! ## Small facts about `saveState` -/

theorem saveStateM_blocks (s : CanvasState) : (saveStateM s).blocks = s.blocks := by
  simp only [saveStateM]
  split <;> split <;> rfl

theorem saveStateM_blockCounter (s : CanvasState) :
    (saveStateM s).blockCounter = s.blockCounter := by
  simp only [saveStateM]
  split <;> split <;> rfl

/-! ## Claim C7 — autosave debounce -/

/-- C7: **confirmed**.  For any burst of `N ≥ 1` committed mutations at
strictly increasing times, each occurring less than the 1000 ms debounce window
after the previous one, exactly one `saveToJSON` call is issued — at
quiescence-time + 1000 ms, strictly after every mutation of the burst (each
mutation inside the window cancels the pending timer and restarts it). -/
theorem debounced_burst_single_save :
    ∀ (rest : List ℕ) (t : ℕ),
      List.Chain' (fun a b => a < b ∧ b < a + 1000) (t :: rest) →
      runDebounce 1000 (t :: rest)
          = [(t :: rest).getLast (List.cons_ne_nil t rest) + 1000] ∧
      ∀ x ∈ t :: rest, x < (t :: rest).getLast (List.cons_ne_nil t rest) + 1000 := by
  intro rest
  induction rest with
  | nil =>
    intro t _
    refine ⟨rfl, ?_⟩
    intro x hx
    have hx2 : x = t := by simpa using hx
    subst hx2
    rw [List.getLast_singleton]
    omega
  | cons t2 rest ih =>
    intro t hchain
    rw [List.chain'_cons] at hchain
    obtain ⟨⟨hlt, hwin⟩, htail⟩ := hchain
    have IH := ih t2 htail
    have hlast : (t :: t2 :: rest).getLast (List.cons_ne_nil t (t2 :: rest))
        = (t2 :: rest).getLast (List.cons_ne_nil t2 rest) := List.getLast_cons _
    constructor
    · show (if t + 1000 ≤ t2 then [t + 1000] else []) ++ runDebounce 1000 (t2 :: rest) = _
      rw [if_neg (by omega), List.nil_append, IH.1, hlast]
    · intro x hx
      rw [hlast]
      rcases List.mem_cons.mp hx with hx | hx
      · have ht2 := IH.2 t2 (List.mem_cons_self t2 rest)
        omega
      · exact IH.2 x hx

/-- Witness for `debounced_burst_single_save`: three mutations at 0, 500 and
900 ms (gaps under the window) yield exactly one save, at 1900 ms. -/
theorem debounced_burst_single_save_witness :
    runDebounce 1000 [0, 500, 900] = [1900] ∧ ∀ x ∈ [0, 500, 900], x < 1900 := by
  have hchain : List.Chain' (fun a b => a < b ∧ b < a + 1000) [0, 500, 900] := by
    refine List.chain'_cons.mpr ⟨⟨?_, ?_⟩, List.chain'_cons.mpr
      ⟨⟨?_, ?_⟩, List.chain'_singleton 900⟩⟩ <;> omega
  have h := debounced_burst_single_save [500, 900] 0 hchain
  simpa using h

/-! ## Claim C8 — grid-aligned positions -/

/-- Looking up the key just written returns the written element. -/
theorem jsMapGet_jsMapSet (m : List (String × BlockElem)) (k : String) (v : BlockElem) :
    jsMapGet (jsMapSet m k v) k = some v := by
  unfold jsMapGet jsMapSet
  by_cases h : m.any (fun p => p.1 = k)
  · rw [if_pos h]
    induction m with
    | nil => simp at h
    | cons p m ihm =>
      simp only [List.any_cons, Bool.or_eq_true, decide_eq_true_eq] at h
      by_cases hp : p.1 = k
      · simp [hp]
      · have h2 : m.any (fun p => p.1 = k) := by
          rcases h with h | h
          · exact absurd h hp
          · exact h
        simp only [List.map_cons, if_neg hp]
        rw [List.find?_cons_of_neg _ (by simpa using hp)]
        exact ihm h2
  · rw [if_neg h]
    induction m with
    | nil => simp
    | cons p m ihm =>
      simp only [List.any_cons, Bool.or_eq_true, decide_eq_true_eq, not_or] at h
      rw [List.cons_append, List.find?_cons_of_neg _ (by simpa using h.1)]
      exact ihm (by simpa using h.2)

theorem gridAligned_gridSnap (q : ℚ) : gridAligned (gridSnap q) :=
  ⟨jsRound (q / 20), mul_comm ((jsRound (q / 20) : ℤ) : ℚ) 20⟩

/-- C8 (amended): every operation that *snaps* — insertion via `addBlock`
(hence also duplication, which re-enters `addBlock`) and drag-move — stores
positions that are exact multiples of the grid unit 20: both the element's
inline-style position and the coordinates the operation writes to the model
data.  (`import` and session restore copy document positions verbatim; see the
counterexample.) -/
theorem snapped_positions_grid_aligned :
    (∀ (st : CanvasState) (ty : String) (px py : ℚ) (e : BlockElem),
      jsMapGet (addBlockM st ty px py).1.blocks (addBlockM st ty px py).2 = some e →
        (gridAligned e.styleLeft ∧ gridAligned e.styleTop) ∧
        ∀ b : BlockData, e.blockData = .data b → gridAligned b.x ∧ gridAligned b.y) ∧
    (∀ (st : CanvasState) (blockId : String) (px py : ℚ) (e0 e : BlockElem),
      jsMapGet st.blocks blockId = some e0 →
      jsMapGet (dragMoveM st blockId px py).blocks blockId = some e →
        gridAligned e.styleLeft ∧ gridAligned e.styleTop) := by
  constructor
  · intro st ty px py e h
    have hget : jsMapGet (addBlockM st ty px py).1.blocks (addBlockM st ty px py).2
        = some { domId := "canvas-" ++ mkBlockId (st.blockCounter + 1),
                 blockData := .data { id := mkBlockId (st.blockCounter + 1), type := ty,
                                      x := gridSnap px, y := gridSnap py, properties := [] },
                 styleLeft := gridSnap px, styleTop := gridSnap py } := by
      show jsMapGet (saveStateM _).blocks _ = _
      rw [saveStateM_blocks]
      exact jsMapGet_jsMapSet _ _ _
    rw [h] at hget
    obtain rfl := (Option.some_injective _ hget)
    refine ⟨⟨gridAligned_gridSnap px, gridAligned_gridSnap py⟩, ?_⟩
    intro b hb
    injection hb with hb2
    subst hb2
    exact ⟨gridAligned_gridSnap px, gridAligned_gridSnap py⟩
  · intro st blockId px py e0 e h0 h
    have hd : dragMoveM st blockId px py
        = { st with blocks := jsMapSet st.blocks blockId (draggedElem e0 px py) } := by
      unfold dragMoveM
      rw [h0]
      rfl
    rw [hd] at h
    have h2 : jsMapGet (jsMapSet st.blocks blockId (draggedElem e0 px py)) blockId
        = some e := h
    rw [jsMapGet_jsMapSet] at h2
    obtain rfl := (Option.some_injective _ h2)
    exact ⟨gridAligned_gridSnap px, gridAligned_gridSnap py⟩

/-- Witness for `snapped_positions_grid_aligned`: dropping a block at the
unaligned canvas point (35, 22) stores it snapped to (40, 20). -/
theorem snapped_positions_grid_aligned_witness :
    (gridAligned (40 : ℚ) ∧ gridAligned (20 : ℚ)) ∧
    ∀ b : BlockData,
      BVal.data { id := "block_1", type := "print", x := 40, y := 20, properties := [] }
        = .data b → gridAligned b.x ∧ gridAligned b.y := by
  have h := snapped_positions_grid_aligned.1 freshManager "print" 35 22
    { domId := "canvas-block_1",
      blockData := .data { id := "block_1", type := "print", x := 40, y := 20,
                           properties := [] },
      styleLeft := 40, styleTop := 20 }
    (by with_unfolding_all rfl)
  exact h

/-- C8 counterexample to the claim as stated: importing a document whose block
sits at `x = 7` stores the position verbatim — `import` performs no grid
snapping, so after this operation a block's stored coordinate is not a
multiple of 20. -/
theorem import_stores_unsnapped_position :
    graphBlocks (importM freshManager
        { blocks := [{ id := "block_1", type := "print", x := 7, y := 0, properties := [] }],
          connections := [], mZoom := 1, mPanX := 0, mPanY := 0 })
      = [{ id := "block_1", type := "print", x := 7, y := 0, properties := [] }] ∧
    ¬ gridAligned (7 : ℚ) := by
  constructor
  · with_unfolding_all rfl
  · rintro ⟨k, hk⟩
    have : (7 : ℤ) = 20 * k := by exact_mod_cast hk
    omega

/-! ## Claim C5 — export/import round trip -/

/-- C5: **refuted (code bug)**.  `export` computes each block's position as
`(rect.left - canvasRect.left - panX) / zoom`; but the pan translation moves
the block's and the container's bounding rects together, so the rect
difference is already pan-independent and the extra `- panX` shifts every
exported coordinate.  For a one-block graph at (20, 20) in a session panned to
`panX = 40` (zoom 1, where the layout model is exact), the round trip yields a
block at (-20, 20): no renaming of ids makes the result structurally equal to
the original. -/
theorem import_export_shifts_positions :
    graphBlocks { (addBlockM freshManager "print" 20 20).1 with panX := 40 }
      = [{ id := "block_1", type := "print", x := 20, y := 20, properties := [] }] ∧
    graphBlocks (importM { (addBlockM freshManager "print" 20 20).1 with panX := 40 }
        (exportM { (addBlockM freshManager "print" 20 20).1 with panX := 40 }))
      = [{ id := "block_1", type := "print", x := -20, y := 20, properties := [] }] ∧
    ¬ GraphEqUpToIds { (addBlockM freshManager "print" 20 20).1 with panX := 40 }
        (importM { (addBlockM freshManager "print" 20 20).1 with panX := 40 }
          (exportM { (addBlockM freshManager "print" 20 20).1 with panX := 40 })) := by
  have hX : graphBlocks { (addBlockM freshManager "print" 20 20).1 with panX := 40 }
      = [{ id := "block_1", type := "print", x := 20, y := 20, properties := [] }] := by
    with_unfolding_all rfl
  have hR : graphBlocks (importM { (addBlockM freshManager "print" 20 20).1 with panX := 40 }
        (exportM { (addBlockM freshManager "print" 20 20).1 with panX := 40 }))
      = [{ id := "block_1", type := "print", x := -20, y := 20, properties := [] }] := by
    with_unfolding_all rfl
  refine ⟨hX, hR, ?_⟩
  rintro ⟨f, hb, -⟩
  rw [hX, hR] at hb
  simp only [List.map_cons, List.map_nil] at hb
  injection hb with hhead _
  have hx := congrArg BlockData.x hhead
  norm_num at hx

/-! ## Claim C9 — block-id freshness -/

theorem addBlockM_blockCounter (st : CanvasState) (ty : String) (px py : ℚ) :
    (addBlockM st ty px py).1.blockCounter = st.blockCounter + 1 := by
  show (saveStateM _).blockCounter = _
  rw [saveStateM_blockCounter]

theorem restoreStateM_blockCounter (st : CanvasState) (os : Option Snapshot) :
    (restoreStateM st os).blockCounter = st.blockCounter := by
  cases os <;> rfl

theorem removeBlockM_blockCounter (st : CanvasState) (i : String) :
    (removeBlockM st i).1.blockCounter = st.blockCounter := by
  unfold removeBlockM
  split
  · rfl
  · exact saveStateM_blockCounter _

theorem undoM_blockCounter (st : CanvasState) :
    (undoM st).blockCounter = st.blockCounter := by
  unfold undoM
  split
  · rw [restoreStateM_blockCounter]
  · rfl

theorem redoM_blockCounter (st : CanvasState) :
    (redoM st).blockCounter = st.blockCounter := by
  unfold redoM
  split
  · rw [restoreStateM_blockCounter]
  · rfl

theorem clearM_blockCounter (st : CanvasState) :
    (clearM st).blockCounter = st.blockCounter := by
  unfold clearM
  exact saveStateM_blockCounter _

/-- Counter behaviour of every non-restore operation: only `addBlock` changes
the id counter, and it increments it. -/
theorem applyOp_blockCounter (st : CanvasState) (op : Op) (h : op.isRestore = false) :
    st.blockCounter ≤ (applyOp st op).1.blockCounter ∧
    (∀ ty px py, op = Op.addB ty px py →
      (applyOp st op).1.blockCounter = st.blockCounter + 1) := by
  cases op with
  | addB ty px py =>
    refine ⟨?_, ?_⟩
    · rw [show (applyOp st (Op.addB ty px py)).1 = (addBlockM st ty px py).1 from rfl,
        addBlockM_blockCounter]
      omega
    · intro ty2 px2 py2 he
      rw [show (applyOp st (Op.addB ty px py)).1 = (addBlockM st ty px py).1 from rfl,
        addBlockM_blockCounter]
  | removeB i =>
    exact ⟨le_of_eq (removeBlockM_blockCounter st i).symm, by intro _ _ _ he; cases he⟩
  | undoOp => exact ⟨le_of_eq (undoM_blockCounter st).symm, by intro _ _ _ he; cases he⟩
  | redoOp => exact ⟨le_of_eq (redoM_blockCounter st).symm, by intro _ _ _ he; cases he⟩
  | clearOp => exact ⟨le_of_eq (clearM_blockCounter st).symm, by intro _ _ _ he; cases he⟩
  | restoreOp defs doc => cases h

/-- In a restore-free run, every id assigned is `mkBlockId` of a counter value
above the starting counter, with no repetitions. -/
theorem runOps_fresh_ids (ops : List Op) :
    ∀ st : CanvasState, (∀ op ∈ ops, op.isRestore = false) →
      ∃ ks : List ℕ, (runOps st ops).2 = ks.map mkBlockId ∧ ks.Nodup ∧
        ∀ k ∈ ks, st.blockCounter < k := by
  induction ops with
  | nil =>
    intro st _
    exact ⟨[], rfl, List.nodup_nil, by simp⟩
  | cons op ops ih =>
    intro st hops
    have hop : op.isRestore = false := hops op (List.mem_cons_self op ops)
    have hops2 : ∀ o ∈ ops, o.isRestore = false :=
      fun o ho => hops o (List.mem_cons_of_mem op ho)
    obtain ⟨ks, hks, hnd, hgt⟩ := ih (applyOp st op).1 hops2
    cases op with
    | addB ty px py =>
      refine ⟨(st.blockCounter + 1) :: ks, ?_, ?_, ?_⟩
      · show (applyOp st (Op.addB ty px py)).2
            ++ (runOps (applyOp st (Op.addB ty px py)).1 ops).2 = _
        rw [hks, List.map_cons]
        rfl
      · refine List.nodup_cons.mpr ⟨?_, hnd⟩
        intro hmem
        have := hgt _ hmem
        rw [(applyOp_blockCounter st _ hop).2 ty px py rfl] at this
        omega
      · intro k hk
        rcases List.mem_cons.mp hk with rfl | hk
        · omega
        · have := hgt k hk
          rw [(applyOp_blockCounter st _ hop).2 ty px py rfl] at this
          omega
    | removeB i =>
      refine ⟨ks, ?_, hnd, ?_⟩
      · show (applyOp st (Op.removeB i)).2
            ++ (runOps (applyOp st (Op.removeB i)).1 ops).2 = _
        exact hks
      · intro k hk
        have := hgt k hk
        have hle := (applyOp_blockCounter st (Op.removeB i) hop).1
        omega
    | undoOp =>
      refine ⟨ks, ?_, hnd, ?_⟩
      · show (applyOp st Op.undoOp).2 ++ (runOps (applyOp st Op.undoOp).1 ops).2 = _
        exact hks
      · intro k hk
        have := hgt k hk
        have hle := (applyOp_blockCounter st Op.undoOp hop).1
        omega
    | redoOp =>
      refine ⟨ks, ?_, hnd, ?_⟩
      · show (applyOp st Op.redoOp).2 ++ (runOps (applyOp st Op.redoOp).1 ops).2 = _
        exact hks
      · intro k hk
        have := hgt k hk
        have hle := (applyOp_blockCounter st Op.redoOp hop).1
        omega
    | clearOp =>
      refine ⟨ks, ?_, hnd, ?_⟩
      · show (applyOp st Op.clearOp).2 ++ (runOps (applyOp st Op.clearOp).1 ops).2 = _
        exact hks
      · intro k hk
        have := hgt k hk
        have hle := (applyOp_blockCounter st Op.clearOp hop).1
        omega
    | restoreOp defs doc => cases hop

/-- C9 (amended): in any session whose operations are `addBlock`,
`removeBlock`, `undo`, `redo` and UI clear-all (`clear()`, which keeps the id
counter) — i.e. no session load/`restoreFromJSONState` — `addBlock` never
assigns an id equal to the id of any block that exists or previously existed:
the counter only grows, so the list of all assigned ids has no duplicates. -/
theorem addBlock_ids_fresh_without_session_restore (ops : List Op)
    (h : ∀ op ∈ ops, op.isRestore = false) :
    ((runOps freshManager ops).2).Nodup := by
  obtain ⟨ks, hks, hnd, -⟩ := runOps_fresh_ids ops freshManager h
  rw [hks]
  exact hnd.map mkBlockId_injective

/-- Witness for `addBlock_ids_fresh_without_session_restore` on a concrete
session: add, remove, add again — the two assigned ids differ. -/
theorem addBlock_ids_fresh_witness :
    ((runOps freshManager
        [Op.addB "print" 0 0, Op.removeB "block_1", Op.addB "input" 0 0]).2).Nodup := by
  apply addBlock_ids_fresh_without_session_restore
  intro op hop
  have : op = Op.addB "print" 0 0 ∨ op = Op.removeB "block_1"
      ∨ op = Op.addB "input" 0 0 := by simpa using hop
  rcases this with rfl | rfl | rfl <;> rfl

/-- C9 counterexample to the claim as stated: a session load
(`restoreFromJSONState`, here of an empty saved session) resets `blockCounter`
to 0, so the next `addBlock` re-assigns `block_1`, an id already assigned
earlier in the same session. -/
theorem session_restore_reuses_block_id :
    (runOps freshManager
        [Op.addB "print" 0 0,
         Op.restoreOp [] { blocks := [], connections := [], zoom := 1, panX := 0, panY := 0 },
         Op.addB "print" 0 0]).2 = ["block_1", "block_1"] ∧
    ¬ ((runOps freshManager
        [Op.addB "print" 0 0,
         Op.restoreOp [] { blocks := [], connections := [], zoom := 1, panX := 0, panY := 0 },
         Op.addB "print" 0 0]).2).Nodup := by
  have h1 : (runOps freshManager
        [Op.addB "print" 0 0,
         Op.restoreOp [] { blocks := [], connections := [], zoom := 1, panX := 0, panY := 0 },
         Op.addB "print" 0 0]).2 = ["block_1", "block_1"] := by
    with_unfolding_all rfl
  refine ⟨h1, ?_⟩
  rw [h1]
  simp


/-! ## Claim C10 — import's history and autosave behaviour -/

/-- `saveState` with the cursor at the end of a history below the cap simply
appends the snapshot and advances the cursor. -/
theorem saveStateM_at_end (s : CanvasState)
    (h1 : s.historyIndex = (s.history.length : ℤ) - 1)
    (h2 : s.history.length + 1 ≤ maxHistorySize) :
    saveStateM s = { s with
                     history := s.history ++ [liveSnapshot s],
                     historyIndex := s.historyIndex + 1,
                     autosavePending := true } := by
  have hc1 : ¬ s.historyIndex < (s.history.length : ℤ) - 1 := by omega
  have hc2 : ¬ maxHistorySize < (s.history ++ [liveSnapshot s]).length := by
    simp only [List.length_append, List.length_singleton, maxHistorySize] at h2 ⊢
    omega
  simp only [saveStateM]
  rw [if_neg hc1, if_neg hc2]

theorem foldImport_history (bs : List BlockData) :
    ∀ st : CanvasState, (bs.foldl importBlockStep st).history = st.history := by
  induction bs with
  | nil => intro st; rfl
  | cons b bs ih => intro st; exact ih _

theorem foldImport_historyIndex (bs : List BlockData) :
    ∀ st : CanvasState, (bs.foldl importBlockStep st).historyIndex = st.historyIndex := by
  induction bs with
  | nil => intro st; rfl
  | cons b bs ih => intro st; exact ih _

/-- C10 (amended): a successful `import` commits *two* history entries, not
one: `clear()` pushes a snapshot of the emptied canvas, and `import` pushes a
second entry after installing the document; a debounced autosave is scheduled.
Consequently a single undo after an import lands on the empty cleared canvas
(not on the pre-import graph). -/
theorem import_pushes_two_entries (st : CanvasState) (doc : ExportDoc)
    (h1 : st.historyIndex = (st.history.length : ℤ) - 1)
    (h2 : st.history.length + 2 ≤ maxHistorySize) :
    (importM st doc).history.length = st.history.length + 2 ∧
    (importM st doc).historyIndex = st.historyIndex + 2 ∧
    (importM st doc).autosavePending = true ∧
    (importM st doc).history.get? st.history.length = some (clearedSnap st) ∧
    (undoM (importM st doc)).blocks = [] ∧
    (undoM (importM st doc)).connections = [] := by
  have hclear : clearM st
      = { st with
          blocks := [],
          connections := [],
          selectedBlock := none,
          history := st.history ++ [clearedSnap st],
          historyIndex := st.historyIndex + 1,
          autosavePending := true } := by
    unfold clearM
    rw [saveStateM_at_end _ (by exact h1)
      (by show st.history.length + 1 ≤ maxHistorySize; omega)]
    rfl
  have himp : importM st doc = saveStateM (importPre st doc) := rfl
  have hh2 : (importPre st doc).history = st.history ++ [clearedSnap st] := by
    show (doc.blocks.foldl importBlockStep (clearM st)).history = _
    rw [foldImport_history, hclear]
  have hi2 : (importPre st doc).historyIndex = st.historyIndex + 1 := by
    show (doc.blocks.foldl importBlockStep (clearM st)).historyIndex = _
    rw [foldImport_historyIndex, hclear]
  have hsave : saveStateM (importPre st doc)
      = { importPre st doc with
          history := (importPre st doc).history ++ [liveSnapshot (importPre st doc)],
          historyIndex := (importPre st doc).historyIndex + 1,
          autosavePending := true } := by
    apply saveStateM_at_end
    · rw [hi2, hh2]
      simp only [List.length_append, List.length_singleton]
      push_cast
      omega
    · rw [hh2]
      simp only [List.length_append, List.length_singleton, maxHistorySize] at h2 ⊢
      omega
  have hlen : (importM st doc).history.length = st.history.length + 2 := by
    rw [himp, hsave]
    show ((importPre st doc).history ++ [liveSnapshot (importPre st doc)]).length = _
    rw [hh2]
    simp [List.length_append]
  have hidx : (importM st doc).historyIndex = st.historyIndex + 2 := by
    rw [himp, hsave]
    show (importPre st doc).historyIndex + 1 = _
    rw [hi2]
    ring
  have hget : (importM st doc).history.get? st.history.length = some (clearedSnap st) := by
    rw [himp, hsave]
    show ((importPre st doc).history ++ [liveSnapshot (importPre st doc)]).get?
        st.history.length = _
    rw [hh2, List.append_assoc, List.get?_append_right le_rfl]
    simp
  have hpos : 0 < (importM st doc).historyIndex := by
    rw [hidx, h1]
    have : (0 : ℤ) ≤ (st.history.length : ℤ) := by positivity
    omega
  have hundo : undoM (importM st doc)
      = restoreStateM
          { importM st doc with historyIndex := (importM st doc).historyIndex - 1 }
          ((importM st doc).history.get? ((importM st doc).historyIndex - 1).toNat) := by
    unfold undoM
    rw [if_pos hpos]
  have hix : ((importM st doc).historyIndex - 1).toNat = st.history.length := by
    rw [hidx, h1]
    omega
  have hundo2 : undoM (importM st doc)
      = restoreStateM
          { importM st doc with historyIndex := (importM st doc).historyIndex - 1 }
          (some (clearedSnap st)) := by
    rw [hundo, hix, hget]
  refine ⟨hlen, hidx, ?_, hget, ?_, ?_⟩
  · rw [himp, hsave]
  · rw [hundo2]
    simp [restoreStateM, clearedSnap]
  · rw [hundo2]
    simp [restoreStateM, clearedSnap]

/-- Witness for `import_pushes_two_entries` on a fresh session and a one-block
document. -/
theorem import_pushes_two_entries_witness :
    (importM freshManager
        { blocks := [{ id := "block_9", type := "print", x := 0, y := 0, properties := [] }],
          connections := [], mZoom := 1, mPanX := 0, mPanY := 0 }).history.length
      = freshManager.history.length + 2 ∧
    (importM freshManager
        { blocks := [{ id := "block_9", type := "print", x := 0, y := 0, properties := [] }],
          connections := [], mZoom := 1, mPanX := 0, mPanY := 0 }).historyIndex
      = freshManager.historyIndex + 2 ∧
    (importM freshManager
        { blocks := [{ id := "block_9", type := "print", x := 0, y := 0, properties := [] }],
          connections := [], mZoom := 1, mPanX := 0, mPanY := 0 }).autosavePending = true ∧
    (importM freshManager
        { blocks := [{ id := "block_9", type := "print", x := 0, y := 0, properties := [] }],
          connections := [], mZoom := 1, mPanX := 0, mPanY := 0 }).history.get?
        freshManager.history.length
      = some (clearedSnap freshManager) ∧
    (undoM (importM freshManager
        { blocks := [{ id := "block_9", type := "print", x := 0, y := 0, properties := [] }],
          connections := [], mZoom := 1, mPanX := 0, mPanY := 0 })).blocks = [] ∧
    (undoM (importM freshManager
        { blocks := [{ id := "block_9", type := "print", x := 0, y := 0, properties := [] }],
          connections := [], mZoom := 1, mPanX := 0, mPanY := 0 })).connections = [] :=
  import_pushes_two_entries freshManager
    { blocks := [{ id := "block_9", type := "print", x := 0, y := 0, properties := [] }],
      connections := [], mZoom := 1, mPanX := 0, mPanY := 0 }
    (by decide) (by decide)

/-- C10 counterexample to the claim as stated: on a fresh session, one `import`
grows the history by two entries, not by exactly one. -/
theorem import_does_not_push_exactly_one_entry :
    (importM freshManager
        { blocks := [{ id := "block_9", type := "print", x := 0, y := 0, properties := [] }],
          connections := [], mZoom := 1, mPanX := 0, mPanY := 0 }).history.length = 2 ∧
    ¬ (importM freshManager
        { blocks := [{ id := "block_9", type := "print", x := 0, y := 0, properties := [] }],
          connections := [], mZoom := 1, mPanX := 0, mPanY := 0 }).history.length
      = freshManager.history.length + 1 := by
  have h2 : (importM freshManager
      { blocks := [{ id := "block_9", type := "print", x := 0, y := 0, properties := [] }],
        connections := [], mZoom := 1, mPanX := 0, mPanY := 0 }).history.length = 2 := by
    with_unfolding_all rfl
  refine ⟨h2, ?_⟩
  intro hcontra
  rw [h2] at hcontra
  have h0 : freshManager.history.length = 0 := rfl
  omega

/-! ## Claim C4 — redo is a no-op after push, push, undo, push -/

theorem restoreStateM_history (st : CanvasState) (os : Option Snapshot) :
    (restoreStateM st os).history = st.history := by
  cases os <;> rfl

theorem restoreStateM_historyIndex (st : CanvasState) (os : Option Snapshot) :
    (restoreStateM st os).historyIndex = st.historyIndex := by
  cases os <;> rfl

/-- `saveState` from any state satisfying the documented cursor invariant
(`historyIndex ∈ [-1, length - 1]`) leaves the cursor exactly on the last
entry: truncation, append, and cap eviction all conspire to that. -/
theorem saveStateM_cursor_at_end (s : CanvasState)
    (h1 : -1 ≤ s.historyIndex) (h2 : s.historyIndex ≤ (s.history.length : ℤ) - 1) :
    (saveStateM s).historyIndex = ((saveStateM s).history.length : ℤ) - 1 := by
  simp only [saveStateM]
  split_ifs with hc1 hc2 hc3 <;>
    simp only [List.length_drop, List.length_append, List.length_take,
      List.length_singleton, maxHistorySize] at * <;>
    push_cast at * <;>
    omega

theorem undoM_preserves_cursor_invariant (st : CanvasState)
    (h1 : -1 ≤ st.historyIndex) (h2 : st.historyIndex ≤ (st.history.length : ℤ) - 1) :
    -1 ≤ (undoM st).historyIndex ∧
    (undoM st).historyIndex ≤ ((undoM st).history.length : ℤ) - 1 := by
  unfold undoM
  by_cases hc : 0 < st.historyIndex
  · rw [if_pos hc]
    rw [restoreStateM_historyIndex, restoreStateM_history]
    constructor <;> simp <;> omega
  · rw [if_neg hc]
    exact ⟨h1, h2⟩

/-- C4: **confirmed**.  From any editor state satisfying the documented cursor
invariant, the sequence push, push, undo, push leaves `redo()` a no-op: the
final `saveState` discards the history entries beyond the cursor, so the
cursor ends on the last entry and `redo`'s guard
`historyIndex < history.length - 1` fails, changing nothing. -/
theorem redo_noop_after_push_push_undo_push (st : CanvasState)
    (b1 b2 b3 : List (String × BlockElem)) (c1 c2 c3 : List Conn)
    (h1 : -1 ≤ st.historyIndex) (h2 : st.historyIndex ≤ (st.history.length : ℤ) - 1) :
    redoM (commitM (undoM (commitM (commitM st b1 c1) b2 c2)) b3 c3)
      = commitM (undoM (commitM (commitM st b1 c1) b2 c2)) b3 c3 ∧
    (commitM (undoM (commitM (commitM st b1 c1) b2 c2)) b3 c3).historyIndex
      = ((commitM (undoM (commitM (commitM st b1 c1) b2 c2)) b3 c3).history.length : ℤ)
        - 1 := by
  have hv1 : (commitM st b1 c1).historyIndex
      = ((commitM st b1 c1).history.length : ℤ) - 1 :=
    saveStateM_cursor_at_end { st with blocks := b1, connections := c1 } h1 h2
  have hv2 : (commitM (commitM st b1 c1) b2 c2).historyIndex
      = ((commitM (commitM st b1 c1) b2 c2).history.length : ℤ) - 1 :=
    saveStateM_cursor_at_end
      { commitM st b1 c1 with blocks := b2, connections := c2 }
      (by show -1 ≤ (commitM st b1 c1).historyIndex; omega)
      (by show (commitM st b1 c1).historyIndex
            ≤ ((commitM st b1 c1).history.length : ℤ) - 1; omega)
  have hu := undoM_preserves_cursor_invariant (commitM (commitM st b1 c1) b2 c2)
    (by omega) (by omega)
  have hv3 : (commitM (undoM (commitM (commitM st b1 c1) b2 c2)) b3 c3).historyIndex
      = ((commitM (undoM (commitM (commitM st b1 c1) b2 c2)) b3 c3).history.length : ℤ)
        - 1 :=
    saveStateM_cursor_at_end
      { undoM (commitM (commitM st b1 c1) b2 c2) with blocks := b3, connections := c3 }
      hu.1 hu.2
  refine ⟨?_, hv3⟩
  unfold redoM
  rw [if_neg (by omega)]

/-- Witness for `redo_noop_after_push_push_undo_push` on a fresh session. -/
theorem redo_noop_after_push_push_undo_push_witness :
    redoM (commitM (undoM (commitM (commitM freshManager [] []) [] [])) [] [])
      = commitM (undoM (commitM (commitM freshManager [] []) [] [])) [] [] ∧
    (commitM (undoM (commitM (commitM freshManager [] []) [] [])) [] []).historyIndex
      = ((commitM (undoM (commitM (commitM freshManager [] []) [] []))
          [] []).history.length : ℤ) - 1 :=
  redo_noop_after_push_push_undo_push freshManager [] [] [] [] [] []
    (by decide) (by decide)

end MMC
